import Mathlib

/-!
Verification of the OnTheMarginFantasy live-draft client and the draft
coordinator it talks to.

The definitions below are shallow embeddings of the TypeScript source:
  * `src/front-end/src/screens/League/LeagueDraftPage.tsx` (draft page state)
  * `src/front-end/src/api/draft.ts` (`createDraftPick`)
  * `src/front-end/src/utils/teams.ts` (`OwnedTeam` shape)
  * `src/front-end/src/types/draft.ts` (snapshot payload types)
The back-end coordinator (Turn Order Builder, Draft Clock) is not part of
the front-end sources; those two components are modelled from the spec and
are marked as such in their doc comments.

JavaScript numbers are embedded as `Int` (all the arithmetic involved is
integral), timestamps as `Int` milliseconds, `Date.parse` as an abstract
`String → Option Int` argument (`none` standing for `NaN`), and nullable
fields as `Option`.
-/

namespace OnTheMargin

/-- `OwnedTeam` from `src/front-end/src/types/schedule.ts`, restricted to the
fields the draft page reads: `teamId`, `teamName`, `conferenceName`. -/
structure OwnedTeam where
  teamId : Int
  teamName : String
  conferenceName : Option String
deriving DecidableEq, Repr

/-- `DraftSummaryPick` from `src/front-end/src/types/draft.ts`. -/
structure DraftSummaryPick where
  id : Int
  createdAt : String
  overallPickNumber : Int
  roundNumber : Int
  pickInRound : Int
  memberId : Int
  memberTeamName : Option String
  sportTeamId : Int
  sportTeamName : Option String
deriving DecidableEq, Repr

/-- `DraftMember` from `src/front-end/src/types/draft.ts`. -/
structure DraftMember where
  memberId : Int
  userId : String
  teamName : Option String
  draftOrder : Option Int
deriving DecidableEq, Repr

/-- `DraftPickResponse` from `src/front-end/src/types/roster.ts`, restricted
to the field `handleSubmit` reads (`draftComplete`). -/
structure DraftPickResponse where
  draftComplete : Bool
deriving DecidableEq, Repr

/-- An HTTP response as seen by `createDraftPick`: the `ok` flag, the numeric
`status`, and the JSON body (already decoded). -/
structure HttpResponse where
  ok : Bool
  status : Nat
  body : DraftPickResponse
deriving DecidableEq, Repr

/-- `createDraftPick` (src/front-end/src/api/draft.ts, lines 11-34), given the
response of the `fetch`: on `!res.ok` it throws
`Error("Failed to submit draft pick: " + res.status)`, otherwise it returns
the decoded body.  Throwing is embedded as `Except.error` carrying the
error's message. -/
def createDraftPick (res : HttpResponse) : Except String DraftPickResponse :=
  if res.ok then Except.ok res.body
  else Except.error ("Failed to submit draft pick: " ++ toString res.status)

/-- JS `Map.get`: the value stored at a key, if any. -/
def mapGet {κ α : Type} [BEq κ] (m : List (κ × α)) (k : κ) : Option α :=
  (m.find? (fun p => p.1 == k)).map (fun p => p.2)

/-- JS `Map.set`: overwrite the entry in place when the key is present,
append it otherwise (JS maps keep insertion order). -/
def mapSet {κ α : Type} [BEq κ] (m : List (κ × α)) (k : κ) (v : α) :
    List (κ × α) :=
  if m.any (fun p => p.1 == k) then
    m.map (fun p => if p.1 == k then (k, v) else p)
  else
    m ++ [(k, v)]

/-- The client-side draft state `handleSubmit` can touch
(LeagueDraftPage.tsx): the `draftSelections` React state, the copy persisted
to local storage by `persistSelections`, the `selectedTeam`, the
`availableTeams`, the `teamMetaRef` cache, the `showDraftComplete` flag and
the `error` message. -/
structure ClientDraftState where
  draftSelections : List OwnedTeam
  persistedSelections : List OwnedTeam
  selectedTeam : Option OwnedTeam
  availableTeams : List OwnedTeam
  teamMeta : List (Int × OwnedTeam)
  showDraftComplete : Bool
  errorMsg : Option String
deriving Repr

/-- `handleSubmit` (LeagueDraftPage.tsx, lines 551-579), given the HTTP
response of the pick request.  With no selected team it returns early; on a
thrown error it only sets the error message; on success it prepends the pick
to the selections, persists them, clears the selection, filters the picked
team out of `availableTeams`, caches the team metadata, and raises the
draft-complete modal when the response says so. -/
def handleSubmit (res : HttpResponse) (s : ClientDraftState) : ClientDraftState :=
  match s.selectedTeam with
  | none => s
  | some sel =>
    match createDraftPick res with
    | Except.error e => { s with errorMsg := some e }
    | Except.ok r =>
      let updated := sel :: s.draftSelections
      { s with
          draftSelections := updated
          persistedSelections := updated
          selectedTeam := none
          availableTeams := s.availableTeams.filter (fun t => t.teamId != sel.teamId)
          teamMeta := mapSet s.teamMeta sel.teamId sel
          showDraftComplete := s.showDraftComplete || r.draftComplete }

/-- `isUsersTurn` (LeagueDraftPage.tsx, lines 586-587):
`currentMemberId !== null && currentMemberId === userMemberId`. -/
def isUsersTurn (currentMemberId userMemberId : Option Int) : Bool :=
  currentMemberId.isSome && currentMemberId == userMemberId

/-- `isDraftLive` (LeagueDraftPage.tsx, line 605): `draftStatus === "live"`. -/
def isDraftLive (draftStatus : Option String) : Bool :=
  draftStatus == some "live"

/-- `isDraftComplete` (LeagueDraftPage.tsx, line 606):
`draftStatus === "complete"`. -/
def isDraftComplete (draftStatus : Option String) : Bool :=
  draftStatus == some "complete"

/-- `submitDisabled` (LeagueDraftPage.tsx, lines 636-637):
`loading || !selectedTeam || !isUsersTurn || !isDraftLive || isDraftComplete`. -/
def submitDisabled (loading : Bool) (selectedTeam : Option OwnedTeam)
    (currentMemberId userMemberId : Option Int) (draftStatus : Option String) :
    Bool :=
  loading || selectedTeam.isNone ||
    !(isUsersTurn currentMemberId userMemberId) ||
    !(isDraftLive draftStatus) || isDraftComplete draftStatus

/-- The `Maxed` marker of a picked-teams table row
(LeagueDraftPage.tsx, lines 1061-1064): `limit = conferenceLimits.get(conf)`,
`hasLimit = typeof limit === "number"`, `isMaxed = hasLimit && teams.length >= limit`. -/
def isMaxed (conferenceLimits : List (String × Int)) (conference : String)
    (teamsLength : Nat) : Bool :=
  match mapGet conferenceLimits conference with
  | none => false
  | some limit => (teamsLength : Int) ≥ limit

/-- `loadConferences` (LeagueDraftPage.tsx, lines 200-204): builds the
`conferenceLimits` map by `set(conf.displayName, conf.maxTeamsPerOwner)` over
the conference list. -/
def buildConferenceLimits (conferences : List (String × Int)) :
    List (String × Int) :=
  conferences.foldl (fun m c => mapSet m c.1 c.2) []

/-- JS truthiness of the nullable string `draftStatus`: `null` and the empty
string are falsy. -/
def strTruthy (s : Option String) : Bool :=
  match s with
  | none => false
  | some v => v != ""

/-- `joinable` (LeagueDraftPage.tsx, line 607):
`!draftStatus && !isDraftComplete`. -/
def joinable (draftStatus : Option String) : Bool :=
  !(strTruthy draftStatus) && !(isDraftComplete draftStatus)

/-- `showCommissionerActions` (LeagueDraftPage.tsx, line 635):
`isCommissioner && !isDraftComplete`. -/
def showCommissionerActions (isCommissioner : Bool)
    (draftStatus : Option String) : Bool :=
  isCommissioner && !(isDraftComplete draftStatus)

/-- `canStartDraft` (LeagueDraftPage.tsx, line 643):
`isCommissioner && joinable`. -/
def canStartDraft (isCommissioner : Bool) (draftStatus : Option String) : Bool :=
  isCommissioner && joinable draftStatus

/-- `canPauseDraft` (LeagueDraftPage.tsx, line 644):
`isCommissioner && draftStatus === "live"`. -/
def canPauseDraft (isCommissioner : Bool) (draftStatus : Option String) : Bool :=
  isCommissioner && draftStatus == some "live"

/-- `canResumeDraft` (LeagueDraftPage.tsx, line 645):
`isCommissioner && draftStatus === "paused"`. -/
def canResumeDraft (isCommissioner : Bool) (draftStatus : Option String) : Bool :=
  isCommissioner && draftStatus == some "paused"

/-- Whether the Start Draft button is rendered (LeagueDraftPage.tsx,
line 904): `showCommissionerActions && canStartDraft`. -/
def startOffered (isCommissioner : Bool) (draftStatus : Option String) : Bool :=
  showCommissionerActions isCommissioner draftStatus &&
    canStartDraft isCommissioner draftStatus

/-- Whether the Pause Draft button is rendered (LeagueDraftPage.tsx,
line 914): `showCommissionerActions && canPauseDraft`. -/
def pauseOffered (isCommissioner : Bool) (draftStatus : Option String) : Bool :=
  showCommissionerActions isCommissioner draftStatus &&
    canPauseDraft isCommissioner draftStatus

/-- Whether the Resume Draft button is rendered (LeagueDraftPage.tsx,
line 924): `showCommissionerActions && canResumeDraft`. -/
def resumeOffered (isCommissioner : Bool) (draftStatus : Option String) : Bool :=
  showCommissionerActions isCommissioner draftStatus &&
    canResumeDraft isCommissioner draftStatus

/-- The `serverNow` block of `applyDraftSnapshot` (LeagueDraftPage.tsx,
lines 349-354) and `loadDraftSummary` (501-506), in isolation: when the
`serverNow` field is truthy and `Date.parse` yields a number, the clock
offset becomes `serverMs - Date.now()`; otherwise the previous offset is
kept.  `dateParse` abstracts `Date.parse`, `none` standing for `NaN`.
Whether the block is reached at all is decided earlier in the handlers —
see `applyDraftSnapshotOffset`. -/
def updateClockOffset (dateParse : String → Option Int)
    (serverNow : Option String) (localNow prevOffsetMs : Int) : Int :=
  match serverNow with
  | none => prevOffsetMs
  | some s =>
    if s = "" then prevOffsetMs
    else
      match dateParse s with
      | none => prevOffsetMs
      | some serverMs => serverMs - localNow

/-- The clock-offset outcome of one `applyDraftSnapshot` (or
`loadDraftSummary`) run: when the payload carries a `picks` array and
`league?.memberId` is null, the handler returns early (LeagueDraftPage.tsx,
lines 316-318; 460-462) before the `serverNow` block, leaving the offset
unchanged; otherwise the `serverNow` block (`updateClockOffset`) runs. -/
def applyDraftSnapshotOffset (dateParse : String → Option Int)
    (memberId : Option Int) (snapshotPicks : Option (List DraftSummaryPick))
    (serverNow : Option String) (localNow prevOffsetMs : Int) : Int :=
  match snapshotPicks with
  | some _ =>
    match memberId with
    | none => prevOffsetMs
    | some _ => updateClockOffset dateParse serverNow localNow prevOffsetMs
  | none => updateClockOffset dateParse serverNow localNow prevOffsetMs

/-- `remainingSeconds` (LeagueDraftPage.tsx, lines 613-625): `null` when the
raw `expiresAt` is falsy or `Date.parse` gives `NaN`; otherwise
`max(0, floor((target - (nowMs + clockOffsetMs)) / 1000))`.  JS float `/`
followed by `Math.floor` on these integral values is integer floor
division (`Int.fdiv`). -/
def remainingSeconds (dateParse : String → Option Int)
    (turnEndsAtRaw : Option String) (nowMs clockOffsetMs : Int) : Option Int :=
  match turnEndsAtRaw with
  | none => none
  | some s =>
    if s = "" then none
    else
      match dateParse s with
      | none => none
      | some target => some (max 0 (Int.fdiv (target - (nowMs + clockOffsetMs)) 1000))

/-- The availability filtering that both `applyDraftSnapshot`
(LeagueDraftPage.tsx, lines 312-344) and `loadDraftSummary` (456-487) apply
when the payload carries a `picks` array: bail out when `league?.memberId` is
null (the early `return` at lines 316-318 and 460-462), otherwise drop from
`availableTeams` every team whose id is in the set of the picks'
`sportTeamId`s. -/
def applySnapshotPicksToAvailable (memberId : Option Int)
    (snapshotPicks : Option (List DraftSummaryPick))
    (availableTeams : List OwnedTeam) : List OwnedTeam :=
  match snapshotPicks with
  | none => availableTeams
  | some picks =>
    match memberId with
    | none => availableTeams
    | some _ =>
      availableTeams.filter
        (fun t => !(picks.any (fun p => p.sportTeamId == t.teamId)))

/-- The `availableTeams` result of `applyDraftSnapshot` (LeagueDraftPage.tsx,
lines 270-344): when the snapshot carries an `availableTeams` array it
replaces the current list (lines 270-275), then the `picks` block filters the
committed picks out (lines 312-344). -/
def applyDraftSnapshotAvailable (memberId : Option Int)
    (snapshotAvailable : Option (List OwnedTeam))
    (snapshotPicks : Option (List DraftSummaryPick))
    (currentAvailable : List OwnedTeam) : List OwnedTeam :=
  applySnapshotPicksToAvailable memberId snapshotPicks
    (snapshotAvailable.getD currentAvailable)

/-- The reducer of `latestPick` (LeagueDraftPage.tsx, lines 724-726):
`(latest, pick) => pick.overallPickNumber > latest.overallPickNumber ? pick : latest`. -/
def latestStep (latest pick : DraftSummaryPick) : DraftSummaryPick :=
  if pick.overallPickNumber > latest.overallPickNumber then pick else latest

/-- `latestPick` (LeagueDraftPage.tsx, lines 720-727): `null` for an empty
pick list, otherwise `picks.reduce(latestStep)` (JS `reduce` with no seed
folds from the left starting at the first element). -/
def latestPick (draftSummaryPicks : List DraftSummaryPick) :
    Option DraftSummaryPick :=
  match draftSummaryPicks with
  | [] => none
  | p :: rest => some (rest.foldl latestStep p)

/-- Modelled from the spec: the Turn Order Builder (§4.1) lives in the
back-end coordinator, which is not among the front-end sources.  A `TurnSlot`
is `(overallPickNumber, roundNumber, pickInRound, memberId)` (§3). -/
structure TurnSlot where
  overallPickNumber : Nat
  roundNumber : Nat
  pickInRound : Nat
  memberId : Nat
deriving DecidableEq, Repr

/-- Modelled from the spec (§4.1): the member order used by a 1-indexed
round — STRAIGHT always forward; SNAKE uses the forward order in odd rounds
and the reverse order in even rounds. -/
def roundMemberOrder (members : List Nat) (snake : Bool) (round : Nat) :
    List Nat :=
  if snake && round % 2 == 0 then members.reverse else members

/-- Modelled from the spec (§4.1): the TurnSlots of one 1-indexed round.
`pickInRound` is 1-indexed within the round regardless of direction;
`overallPickNumber` continues the global 1-indexed count. -/
def slotsForRound (members : List Nat) (snake : Bool) (round : Nat) :
    List TurnSlot :=
  (roundMemberOrder members snake round).enum.map
    (fun p => ⟨(round - 1) * members.length + p.1 + 1, round, p.1 + 1, p.2⟩)

/-- Modelled from the spec (§4.1): the Turn Order Builder.  Input the ordered
member ids (by `draftOrder`), the number of rounds and the style; output the
full ordered TurnSlot sequence, round by round. -/
def buildTurnOrder (members : List Nat) (numberOfRounds : Nat) (snake : Bool) :
    List TurnSlot :=
  (List.range numberOfRounds).flatMap (fun r => slotsForRound members snake (r + 1))

/-- Modelled from the spec: the Draft Clock's state (§4.3) — the back-end
coordinator is not among the front-end sources.  `expiresAt` is a millisecond
instant, null when not live; `remainingMillisAtPause` is set only while
paused. -/
structure ClockState where
  expiresAt : Option Int
  remainingMillisAtPause : Option Int
deriving DecidableEq, Repr

/-- Modelled from the spec (§4.3): `begin(turn)` sets
`expiresAt = now + selectionSeconds + graceSeconds` (converted to
milliseconds). -/
def clockBegin (selectionSeconds graceSeconds nowMs : Int) : ClockState :=
  ⟨some (nowMs + (selectionSeconds + graceSeconds) * 1000), none⟩

/-- Modelled from the spec (§4.3): `pause()` captures
`remainingMillisAtPause = max(0, expiresAt - now)` and clears `expiresAt`
(valid only while an expiry is armed). -/
def clockPause (c : ClockState) (nowMs : Int) : ClockState :=
  match c.expiresAt with
  | none => c
  | some e => ⟨none, some (max 0 (e - nowMs))⟩

/-- Modelled from the spec (§4.3): `resume()` re-arms using
`remainingMillisAtPause`, setting `expiresAt = now + remainingMillisAtPause`. -/
def clockResume (c : ClockState) (nowMs : Int) : ClockState :=
  match c.remainingMillisAtPause with
  | none => c
  | some r => ⟨some (nowMs + r), none⟩

/-- `latestPickMemberName` (LeagueDraftPage.tsx, lines 728-737): `null` when
there is no latest pick, otherwise the pick's `memberTeamName`, falling back
to the matching draft member's `teamName`, falling back to
`Member ${memberId}` (JS `??` falls back only on null/undefined). -/
def latestPickMemberName (draftSummaryPicks : List DraftSummaryPick)
    (draftMembers : List DraftMember) : Option String :=
  match latestPick draftSummaryPicks with
  | none => none
  | some lp =>
    some (lp.memberTeamName.getD
      (((draftMembers.find? (fun m => m.memberId == lp.memberId)).bind
          (fun m => m.teamName)).getD
        ("Member " ++ toString lp.memberId)))

/-- `latestPickTeamName` (LeagueDraftPage.tsx, lines 738-743): `null` when
there is no latest pick, otherwise the pick's `sportTeamName` falling back to
`Team ${sportTeamId}`. -/
def latestPickTeamName (draftSummaryPicks : List DraftSummaryPick) :
    Option String :=
  match latestPick draftSummaryPicks with
  | none => none
  | some lp => some (lp.sportTeamName.getD ("Team " ++ toString lp.sportTeamId))

/-- Whether the Latest Pick aside is rendered (LeagueDraftPage.tsx,
line 937): `latestPickMemberName && latestPickTeamName`. -/
def latestPanelRendered (draftSummaryPicks : List DraftSummaryPick)
    (draftMembers : List DraftMember) : Bool :=
  strTruthy (latestPickMemberName draftSummaryPicks draftMembers) &&
    strTruthy (latestPickTeamName draftSummaryPicks)

/-!  ## Theorems  -/

/-- C1: the 'Draft Selected Team' submit action is enabled (i.e.
`submitDisabled` is false) if and only if no load is in progress, a team is
selected, the draft status equals `"live"`, the status is not `"complete"`,
and the viewing user's memberId equals the snapshot's `currentMemberId`. -/
theorem submit_enabled_iff (loading : Bool) (selectedTeam : Option OwnedTeam)
    (currentMemberId userMemberId : Option Int) (draftStatus : Option String) :
    submitDisabled loading selectedTeam currentMemberId userMemberId
        draftStatus = false ↔
      (loading = false ∧ selectedTeam.isSome = true ∧
        draftStatus = some "live" ∧ draftStatus ≠ some "complete" ∧
        ∃ m, currentMemberId = some m ∧ userMemberId = some m) := by
  simp only [submitDisabled, isUsersTurn, isDraftLive, isDraftComplete,
    Bool.or_eq_false_iff, Bool.not_eq_false', Bool.and_eq_true, beq_iff_eq,
    Option.isNone_eq_false_iff, Option.isSome_iff_exists, beq_eq_false_iff_ne]
  constructor
  · rintro ⟨⟨⟨⟨hl, hs⟩, ht⟩, hlive⟩, hc⟩
    obtain ⟨⟨m, hm⟩, hcu⟩ := ht
    exact ⟨hl, hs, hlive, hc, m, hm, hcu ▸ hm⟩
  · rintro ⟨hl, hs, hlive, hc, m, hm, hu⟩
    exact ⟨⟨⟨⟨hl, hs⟩, ⟨⟨m, hm⟩, by rw [hm, hu]⟩⟩, hlive⟩, hc⟩

/-- C2: a rejected pick submission changes nothing — when the HTTP response
is not ok, `createDraftPick` produces an error whose message contains the
response status, and `handleSubmit` leaves the selections, the persisted
selections, the selected team, the available teams, the team-metadata cache
and the draft-complete flag unchanged, setting only the error message. -/
theorem rejected_pick_changes_nothing (res : HttpResponse)
    (s : ClientDraftState) (hok : res.ok = false)
    (hsel : s.selectedTeam.isSome = true) :
    createDraftPick res =
        Except.error ("Failed to submit draft pick: " ++ toString res.status) ∧
      (∃ pre, ("Failed to submit draft pick: " ++ toString res.status) =
        pre ++ toString res.status) ∧
      (handleSubmit res s).draftSelections = s.draftSelections ∧
      (handleSubmit res s).persistedSelections = s.persistedSelections ∧
      (handleSubmit res s).selectedTeam = s.selectedTeam ∧
      (handleSubmit res s).availableTeams = s.availableTeams ∧
      (handleSubmit res s).teamMeta = s.teamMeta ∧
      (handleSubmit res s).showDraftComplete = s.showDraftComplete ∧
      (handleSubmit res s).errorMsg =
        some ("Failed to submit draft pick: " ++ toString res.status) := by
  obtain ⟨sel, hs⟩ := Option.isSome_iff_exists.mp hsel
  have hc : createDraftPick res =
      Except.error ("Failed to submit draft pick: " ++ toString res.status) := by
    simp [createDraftPick, hok]
  have hh : handleSubmit res s = { s with errorMsg := some ("Failed to submit draft pick: " ++ toString res.status) } := by
    simp [handleSubmit, hs, hc]
  refine ⟨hc, ⟨"Failed to submit draft pick: ", rfl⟩, ?_⟩
  rw [hh]
  exact ⟨rfl, rfl, rfl, rfl, rfl, rfl, rfl⟩

/-- Witness for C2 at a concrete rejected response and client state. -/
theorem rejected_pick_changes_nothing_app :
    (⟨false, 404, ⟨false⟩⟩ : HttpResponse).ok = false ∧
      (handleSubmit ⟨false, 404, ⟨false⟩⟩
          ⟨[], [], some ⟨7, "A", none⟩, [⟨7, "A", none⟩], [], false, none⟩).availableTeams =
        [⟨7, "A", none⟩] ∧
      (handleSubmit ⟨false, 404, ⟨false⟩⟩
          ⟨[], [], some ⟨7, "A", none⟩, [⟨7, "A", none⟩], [], false, none⟩).errorMsg =
        some "Failed to submit draft pick: 404" :=
  ⟨rfl,
    (rejected_pick_changes_nothing ⟨false, 404, ⟨false⟩⟩
        ⟨[], [], some ⟨7, "A", none⟩, [⟨7, "A", none⟩], [], false, none⟩
        rfl rfl).2.2.2.2.2.1,
    (rejected_pick_changes_nothing ⟨false, 404, ⟨false⟩⟩
        ⟨[], [], some ⟨7, "A", none⟩, [⟨7, "A", none⟩], [], false, none⟩
        rfl rfl).2.2.2.2.2.2.2.2⟩

/-- C5: a conference row is marked Maxed iff a cap entry exists for the
conference and the picked-team count is at least the cap; with a cap entry
the member stays eligible (not maxed) exactly while the count is strictly
below the cap; a cap of zero is maxed from the start; a conference with no
cap entry is never maxed. -/
theorem maxed_iff_cap_reached (conferenceLimits : List (String × Int))
    (conference : String) (teamsLength : Nat) :
    (isMaxed conferenceLimits conference teamsLength = true ↔
        ∃ cap, mapGet conferenceLimits conference = some cap ∧
          cap ≤ (teamsLength : Int)) ∧
      (mapGet conferenceLimits conference = none →
        isMaxed conferenceLimits conference teamsLength = false) ∧
      (∀ cap, mapGet conferenceLimits conference = some cap →
        (isMaxed conferenceLimits conference teamsLength = false ↔
          (teamsLength : Int) < cap)) ∧
      (mapGet conferenceLimits conference = some 0 →
        isMaxed conferenceLimits conference teamsLength = true) := by
  cases h : mapGet conferenceLimits conference with
  | none =>
    refine ⟨?_, fun _ => by simp [isMaxed, h], fun cap hc => by simp [h] at hc,
      fun hc => by simp [h] at hc⟩
    simp [isMaxed, h]
  | some limit =>
    refine ⟨?_, fun hn => by simp [h] at hn, ?_, ?_⟩
    · simp only [isMaxed, h, ge_iff_le, decide_eq_true_eq]
      constructor
      · exact fun hle => ⟨limit, rfl, hle⟩
      · rintro ⟨cap, hcap, hle⟩
        cases hcap
        exact hle
    · intro cap hcap
      obtain rfl : limit = cap := Option.some.inj hcap
      simp only [isMaxed, h, ge_iff_le, decide_eq_false_iff_not, not_le]
    · intro hc
      obtain rfl : limit = 0 := Option.some.inj hc
      simp [isMaxed, h]

/-- C3 counterexample: a snapshot carrying a `picks` array while the league
context has no memberId takes the early return (LeagueDraftPage.tsx, lines
316-318) before the `serverNow` block, so the clock offset is not set to
parsed `serverNow` minus local now even though `serverNow` parses. -/
theorem server_now_offset_skipped_on_early_return :
    applyDraftSnapshotOffset (fun s => if s = "now" then some 5000 else none)
        none (some [⟨1, "t0", 1, 1, 1, 2, none, 5, none⟩]) (some "now")
        4000 0 = 0 ∧
      (fun s => if s = "now" then some (5000 : Int) else none) "now" =
        some 5000 ∧
      (5000 : Int) - 4000 ≠ 0 :=
  ⟨rfl, rfl, by decide⟩

/-- C3 amended: provided the snapshot carries no `picks` array or the league
context supplies a memberId (otherwise the handlers return early before the
`serverNow` block): for every applied snapshot whose `serverNow` parses, the
clock offset becomes parsed `serverNow` minus local now; the remaining turn
time is then computed from `expiresAt` against local time adjusted by exactly
that offset; a snapshot without a parseable `serverNow` (or with none at all)
leaves the previous offset unchanged.  The `hempty` hypothesis records that
`Date.parse("")` is `NaN`. -/
theorem server_now_clock_sync (dateParse : String → Option Int)
    (memberId : Option Int) (snapshotPicks : Option (List DraftSummaryPick))
    (prevOffsetMs localNow : Int) (hempty : dateParse "" = none)
    (hreach : snapshotPicks = none ∨ memberId.isSome = true) :
    (∀ s t, dateParse s = some t →
        applyDraftSnapshotOffset dateParse memberId snapshotPicks (some s)
          localNow prevOffsetMs = t - localNow) ∧
      (∀ s, dateParse s = none →
        applyDraftSnapshotOffset dateParse memberId snapshotPicks (some s)
          localNow prevOffsetMs = prevOffsetMs) ∧
      applyDraftSnapshotOffset dateParse memberId snapshotPicks none
        localNow prevOffsetMs = prevOffsetMs ∧
      (∀ s t es target nowMs, dateParse s = some t → dateParse es = some target →
        remainingSeconds dateParse (some es) nowMs
            (applyDraftSnapshotOffset dateParse memberId snapshotPicks (some s)
              localNow prevOffsetMs) =
          some (max 0 (Int.fdiv (target - (nowMs + (t - localNow))) 1000))) := by
  have hred : ∀ sn, applyDraftSnapshotOffset dateParse memberId snapshotPicks
      sn localNow prevOffsetMs =
        updateClockOffset dateParse sn localNow prevOffsetMs := by
    intro sn
    rcases hreach with rfl | hmem
    · rfl
    · obtain ⟨m, rfl⟩ := Option.isSome_iff_exists.mp hmem
      cases snapshotPicks <;> rfl
  have hne : ∀ s t, dateParse s = some t → s ≠ "" := by
    rintro s t hst rfl
    rw [hempty] at hst
    exact Option.noConfusion hst
  refine ⟨?_, ?_, ?_, ?_⟩
  · intro s t hst
    rw [hred]
    simp [updateClockOffset, hne s t hst, hst]
  · intro s hs
    rw [hred]
    unfold updateClockOffset
    by_cases h : s = "" <;> simp [h, hs]
  · rw [hred]
    rfl
  · intro s t es target nowMs hst hes
    rw [hred]
    simp [updateClockOffset, remainingSeconds, hne s t hst, hne es target hes,
      hst, hes]

/-- Witness for C3 (amended) at a concrete parse function, snapshot (with a
picks array but a present memberId) and clock. -/
theorem server_now_clock_sync_app :
    applyDraftSnapshotOffset (fun s => if s = "now" then some 5000 else none)
        (some 9) (some []) (some "now") 4000 0 = 1000 ∧
      applyDraftSnapshotOffset (fun s => if s = "now" then some 5000 else none)
        (some 9) (some []) (some "oops") 4000 777 = 777 :=
  ⟨(server_now_clock_sync (fun s => if s = "now" then some 5000 else none)
        (some 9) (some []) 0 4000 rfl (Or.inr rfl)).1 "now" 5000 rfl,
    (server_now_clock_sync (fun s => if s = "now" then some 5000 else none)
        (some 9) (some []) 777 4000 rfl (Or.inr rfl)).2.1 "oops" rfl⟩

/-- C4: the Start action is offered exactly to the commissioner while the
draft has no status yet; Pause exactly to the commissioner while the status
is `"live"`; Resume exactly to the commissioner while the status is
`"paused"`; a non-commissioner is never offered any of the three.  The
hypothesis restricts the status to the snapshot statuses the coordinator
emits (none standing for NOT_STARTED). -/
theorem commissioner_lifecycle_controls (isCommissioner : Bool)
    (draftStatus : Option String)
    (hdom : draftStatus = none ∨ draftStatus = some "live" ∨
      draftStatus = some "paused" ∨ draftStatus = some "complete") :
    (startOffered isCommissioner draftStatus = true ↔
        isCommissioner = true ∧ draftStatus = none) ∧
      (pauseOffered isCommissioner draftStatus = true ↔
        isCommissioner = true ∧ draftStatus = some "live") ∧
      (resumeOffered isCommissioner draftStatus = true ↔
        isCommissioner = true ∧ draftStatus = some "paused") ∧
      (isCommissioner = false →
        startOffered isCommissioner draftStatus = false ∧
          pauseOffered isCommissioner draftStatus = false ∧
          resumeOffered isCommissioner draftStatus = false) := by
  rcases hdom with rfl | rfl | rfl | rfl <;> cases isCommissioner <;> decide

/-- Witness for C4 at concrete commissioner flags and statuses. -/
theorem commissioner_lifecycle_controls_app :
    startOffered true none = true ∧ pauseOffered true (some "live") = true ∧
      resumeOffered false (some "paused") = false :=
  ⟨(commissioner_lifecycle_controls true none (Or.inl rfl)).1.mpr ⟨rfl, rfl⟩,
    (commissioner_lifecycle_controls true (some "live")
        (Or.inr (Or.inl rfl))).2.1.mpr ⟨rfl, rfl⟩,
    ((commissioner_lifecycle_controls false (some "paused")
        (Or.inr (Or.inr (Or.inl rfl)))).2.2.2 rfl).2.2⟩

/-- C10: the rendered countdown is total and never negative —
`remainingSeconds` is `none` when `expiresAt` is absent or unparseable, is
otherwise `max 0 (floor ((target - (nowMs + clockOffsetMs)) / 1000))`, and
every value it yields is nonnegative.  The hypothesis records that
`Date.parse("")` is `NaN`. -/
theorem remaining_seconds_total_nonneg (dateParse : String → Option Int)
    (nowMs clockOffsetMs : Int) (hempty : dateParse "" = none) :
    remainingSeconds dateParse none nowMs clockOffsetMs = none ∧
      (∀ s, dateParse s = none →
        remainingSeconds dateParse (some s) nowMs clockOffsetMs = none) ∧
      (∀ s target, dateParse s = some target →
        remainingSeconds dateParse (some s) nowMs clockOffsetMs =
          some (max 0 (Int.fdiv (target - (nowMs + clockOffsetMs)) 1000))) ∧
      (∀ e v, remainingSeconds dateParse e nowMs clockOffsetMs = some v →
        0 ≤ v) := by
  refine ⟨rfl, ?_, ?_, ?_⟩
  · intro s hs
    unfold remainingSeconds
    by_cases h : s = "" <;> simp [h, hs]
  · intro s target hst
    have hne : s ≠ "" := by
      rintro rfl
      rw [hempty] at hst
      exact Option.noConfusion hst
    simp [remainingSeconds, hne, hst]
  · intro e v hv
    match e with
    | none => exact Option.noConfusion hv
    | some s =>
      simp only [remainingSeconds] at hv
      by_cases h : s = ""
      · rw [if_pos h] at hv
        exact Option.noConfusion hv
      · rw [if_neg h] at hv
        cases hds : dateParse s with
        | none => rw [hds] at hv; exact Option.noConfusion hv
        | some target =>
          rw [hds] at hv
          obtain rfl : _ = v := Option.some.inj hv
          exact le_max_left 0 _

/-- Witness for C10 at a concrete parse function and clock. -/
theorem remaining_seconds_total_nonneg_app :
    remainingSeconds (fun s => if s = "end" then some 7500 else none)
        (some "end") 1000 500 = some 6 ∧
      remainingSeconds (fun s => if s = "end" then some 7500 else none)
        none 1000 500 = none :=
  ⟨((remaining_seconds_total_nonneg
        (fun s => if s = "end" then some 7500 else none) 1000 500 rfl).2.2.1
      "end" 7500 rfl).trans (by decide),
    (remaining_seconds_total_nonneg
        (fun s => if s = "end" then some 7500 else none) 1000 500 rfl).1⟩

/-- C6 counterexample: when the league context has no `memberId`, the picks
block of `applyDraftSnapshot` returns before reaching the filter, so a team
whose id appears among the picks' `sportTeamId` values stays in
`availableTeams` (snapshot available list `[team 5]`, picks `[pick of team 5]`). -/
theorem snapshot_available_not_disjoint :
    applyDraftSnapshotAvailable none (some [⟨5, "Team Five", none⟩])
        (some [⟨1, "t0", 1, 1, 1, 2, none, 5, none⟩]) [] = [⟨5, "Team Five", none⟩] ∧
      ((applyDraftSnapshotAvailable none (some [⟨5, "Team Five", none⟩])
          (some [⟨1, "t0", 1, 1, 1, 2, none, 5, none⟩]) []).any (fun t =>
        ([(⟨1, "t0", 1, 1, 1, 2, none, 5, none⟩ : DraftSummaryPick)]).any (fun p =>
          p.sportTeamId == t.teamId))) = true :=
  ⟨rfl, rfl⟩

/-- C6 amended: provided the league context supplies a memberId (the handlers
return early before the filter when `league.memberId` is null), after
processing a snapshot that carries a `picks` array no team whose `teamId`
appears among the picks' `sportTeamId` values remains in `availableTeams`
(with `snapshotAvailable := none` this is exactly the `loadDraftSummary`
path, which never replaces the available list). -/
theorem snapshot_available_excludes_picks (memberId : Int)
    (snapshotAvailable : Option (List OwnedTeam))
    (picks : List DraftSummaryPick) (currentAvailable : List OwnedTeam)
    (t : OwnedTeam)
    (ht : t ∈ applyDraftSnapshotAvailable (some memberId) snapshotAvailable
      (some picks) currentAvailable) :
    ∀ p ∈ picks, p.sportTeamId ≠ t.teamId := by
  intro p hp
  simp only [applyDraftSnapshotAvailable, applySnapshotPicksToAvailable] at ht
  obtain ⟨-, hpred⟩ := List.mem_filter.mp ht
  simp only [Bool.not_eq_true', List.any_eq_false, beq_iff_eq] at hpred
  exact hpred p hp

/-- Witness for C6 (amended) at a concrete snapshot. -/
theorem snapshot_available_excludes_picks_app :
    (⟨1, "t0", 1, 1, 1, 2, none, 5, none⟩ : DraftSummaryPick).sportTeamId ≠
      (⟨6, "Team Six", none⟩ : OwnedTeam).teamId :=
  snapshot_available_excludes_picks 2
    (some [⟨5, "Team Five", none⟩, ⟨6, "Team Six", none⟩])
    [⟨1, "t0", 1, 1, 1, 2, none, 5, none⟩] [] ⟨6, "Team Six", none⟩
    (by decide) ⟨1, "t0", 1, 1, 1, 2, none, 5, none⟩ (by decide)

/-- C8: (spec-modelled Draft Clock, §4.3) pausing a turn begun at `t0`
captures `remainingMillisAtPause = max 0 (expiresAt - t1)`, and a subsequent
resume at `t2` grants at least that remaining duration and never more than
the original `selectionSeconds + graceSeconds` window. -/
theorem pause_resume_preserves_turn_time
    (selectionSeconds graceSeconds t0 t1 t2 : Int)
    (hsel : 0 ≤ selectionSeconds) (hgrace : 0 ≤ graceSeconds) (h01 : t0 ≤ t1) :
    ∃ r e,
      (clockPause (clockBegin selectionSeconds graceSeconds t0)
          t1).remainingMillisAtPause = some r ∧
        r = max 0 (t0 + (selectionSeconds + graceSeconds) * 1000 - t1) ∧
        (clockResume (clockPause (clockBegin selectionSeconds graceSeconds t0)
            t1) t2).expiresAt = some e ∧
        r ≤ e - t2 ∧
        e - t2 ≤ (selectionSeconds + graceSeconds) * 1000 := by
  refine ⟨max 0 (t0 + (selectionSeconds + graceSeconds) * 1000 - t1),
    t2 + max 0 (t0 + (selectionSeconds + graceSeconds) * 1000 - t1),
    rfl, rfl, rfl, ?_, ?_⟩ <;> omega

/-- Witness for C8 at a 60-second window paused halfway. -/
theorem pause_resume_preserves_turn_time_app :
    ∃ r e,
      (clockPause (clockBegin 60 0 0) 30000).remainingMillisAtPause = some r ∧
        r = max 0 (0 + (60 + 0) * 1000 - 30000) ∧
        (clockResume (clockPause (clockBegin 60 0 0) 30000)
            100000).expiresAt = some e ∧
        r ≤ e - 100000 ∧ e - 100000 ≤ (60 + 0) * 1000 :=
  pause_resume_preserves_turn_time 60 0 0 30000 100000 (by decide) (by decide)
    (by decide)

/-- The accumulator's `overallPickNumber` never decreases along the
`latestStep` fold. -/
theorem latest_foldl_acc_le (l : List DraftSummaryPick) :
    ∀ acc : DraftSummaryPick, acc.overallPickNumber ≤
      (l.foldl latestStep acc).overallPickNumber := by
  induction l with
  | nil => intro acc; exact le_refl _
  | cons x t ih =>
    intro acc
    by_cases hx : x.overallPickNumber > acc.overallPickNumber
    · calc acc.overallPickNumber ≤ x.overallPickNumber := le_of_lt hx
        _ ≤ _ := by
          simpa [List.foldl_cons, latestStep, hx] using ih x
    · simpa [List.foldl_cons, latestStep, hx] using ih acc

/-- The `latestStep` fold returns the first maximum: the input splits as
`l1 ++ result :: l2` with everything before strictly smaller and everything
after at most the result. -/
theorem latest_foldl_split (l : List DraftSummaryPick) :
    ∀ acc : DraftSummaryPick, ∃ l1 l2,
      acc :: l = l1 ++ (l.foldl latestStep acc) :: l2 ∧
        (∀ q ∈ l1, q.overallPickNumber <
          (l.foldl latestStep acc).overallPickNumber) ∧
        (∀ q ∈ l2, q.overallPickNumber ≤
          (l.foldl latestStep acc).overallPickNumber) := by
  induction l with
  | nil =>
    intro acc
    exact ⟨[], [], rfl, by simp, by simp⟩
  | cons x t ih =>
    intro acc
    by_cases hx : x.overallPickNumber > acc.overallPickNumber
    · have hstep : (x :: t).foldl latestStep acc = t.foldl latestStep x := by
        simp [List.foldl_cons, latestStep, hx]
      obtain ⟨l1, l2, heq, h1, h2⟩ := ih x
      rw [hstep]
      refine ⟨acc :: l1, l2, ?_, ?_, h2⟩
      · rw [List.cons_append, ← heq]
      · intro q hq
        rcases List.mem_cons.mp hq with rfl | hq'
        · exact lt_of_lt_of_le hx (latest_foldl_acc_le t x)
        · exact h1 q hq'
    · have hstep : (x :: t).foldl latestStep acc = t.foldl latestStep acc := by
        simp [List.foldl_cons, latestStep, hx]
      obtain ⟨l1, l2, heq, h1, h2⟩ := ih acc
      rw [hstep]
      cases l1 with
      | nil =>
        simp only [List.nil_append] at heq
        have hacc : acc = t.foldl latestStep acc := (List.cons.injEq _ _ _ _ ▸ heq).1
        have ht2 : t = l2 := (List.cons.injEq _ _ _ _ ▸ heq).2
        refine ⟨[], x :: l2, ?_, by simp, ?_⟩
        · rw [List.nil_append, ← hacc, ← ht2]
        · intro q hq
          rcases List.mem_cons.mp hq with rfl | hq'
          · exact le_trans (le_of_not_lt hx) (hacc ▸ le_refl _)
          · exact h2 q hq'
      | cons a l1' =>
        simp only [List.cons_append] at heq
        have ha : acc = a := (List.cons.injEq _ _ _ _ ▸ heq).1
        have ht : t = l1' ++ (t.foldl latestStep acc) :: l2 :=
          (List.cons.injEq _ _ _ _ ▸ heq).2
        refine ⟨acc :: x :: l1', l2, ?_, ?_, h2⟩
        · rw [List.cons_append, List.cons_append, ← ht]
        · intro q hq
          have hacc_lt : acc.overallPickNumber <
              (t.foldl latestStep acc).overallPickNumber := by
            have : a ∈ a :: l1' := List.mem_cons_self a l1'
            exact ha ▸ h1 a this
          rcases List.mem_cons.mp hq with rfl | hq'
          · exact hacc_lt
          · rcases List.mem_cons.mp hq' with rfl | hq''
            · exact lt_of_le_of_lt (le_of_not_lt hx) hacc_lt
            · exact h1 q (List.mem_cons_of_mem a hq'')

/-- C9 counterexample: on a tie the reducer keeps the earlier element, not
the later one — with two picks sharing `overallPickNumber = 5`, `latestPick`
returns the first, so it is not the last maximal element in reduce order. -/
theorem latest_pick_tie_keeps_first :
    latestPick [⟨1, "t0", 5, 1, 1, 1, none, 10, none⟩,
        ⟨2, "t1", 5, 1, 2, 2, none, 20, none⟩] =
      some ⟨1, "t0", 5, 1, 1, 1, none, 10, none⟩ ∧
      latestPick [⟨1, "t0", 5, 1, 1, 1, none, 10, none⟩,
          ⟨2, "t1", 5, 1, 2, 2, none, 20, none⟩] ≠
        some ⟨2, "t1", 5, 1, 2, 2, none, 20, none⟩ ∧
      (⟨2, "t1", 5, 1, 2, 2, none, 20, none⟩ : DraftSummaryPick).overallPickNumber =
        (⟨1, "t0", 5, 1, 1, 1, none, 10, none⟩ : DraftSummaryPick).overallPickNumber := by
  refine ⟨rfl, ?_, rfl⟩
  intro h
  have := Option.some.inj h
  exact absurd (congrArg DraftSummaryPick.id this) (by decide)

/-- C9 amended: for every non-empty `draftSummaryPicks` list, `latestPick` is
an element whose `overallPickNumber` is at least that of every other element,
and it is the first such element in reduce order (everything before it is
strictly smaller, everything after at most equal); for the empty list it is
`null` and no latest-pick panel is rendered. -/
theorem latest_pick_is_first_max (picks : List DraftSummaryPick)
    (draftMembers : List DraftMember) :
    (picks = [] → latestPick picks = none ∧
        latestPanelRendered picks draftMembers = false) ∧
      (picks ≠ [] → ∃ r l1 l2, latestPick picks = some r ∧
        picks = l1 ++ r :: l2 ∧
        (∀ q ∈ picks, q.overallPickNumber ≤ r.overallPickNumber) ∧
        (∀ q ∈ l1, q.overallPickNumber < r.overallPickNumber) ∧
        (∀ q ∈ l2, q.overallPickNumber ≤ r.overallPickNumber)) := by
  constructor
  · rintro rfl
    exact ⟨rfl, rfl⟩
  · intro hne
    match picks with
    | [] => exact absurd rfl hne
    | p :: rest =>
      obtain ⟨l1, l2, heq, h1, h2⟩ := latest_foldl_split rest p
      refine ⟨rest.foldl latestStep p, l1, l2, rfl, heq, ?_, h1, h2⟩
      intro q hq
      rw [heq] at hq
      rcases List.mem_append.mp hq with hq1 | hq2
      · exact le_of_lt (h1 q hq1)
      · rcases List.mem_cons.mp hq2 with rfl | hq3
        · exact le_refl _
        · exact h2 q hq3

/-- Every round contributes exactly one slot per member. -/
theorem slotsForRound_length (members : List Nat) (snake : Bool) (round : Nat) :
    (slotsForRound members snake round).length = members.length := by
  unfold slotsForRound roundMemberOrder
  split <;> simp

/-- The slot at position `j` of a round is built from the member at position
`j` of that round's order. -/
theorem slotsForRound_getElem? (members : List Nat) (snake : Bool)
    (round j : Nat) :
    (slotsForRound members snake round)[j]? =
      ((roundMemberOrder members snake round)[j]?).map
        (fun m => ⟨(round - 1) * members.length + j + 1, round, j + 1, m⟩) := by
  unfold slotsForRound
  rw [List.getElem?_map]
  simp only [List.enum, List.getElem?_enumFrom, Nat.zero_add, Option.map_map]
  rfl

/-- The concatenation of `n` equal-length blocks has length `n` times the
block length. -/
theorem flatMap_range_length {α : Type} (f : Nat → List α) (M : Nat)
    (hM : ∀ i, (f i).length = M) (n : Nat) :
    ((List.range n).flatMap f).length = n * M := by
  induction n with
  | zero => simp
  | succ n ih =>
    rw [List.range_succ, List.flatMap_append, List.length_append, ih,
      List.flatMap_cons, List.flatMap_nil, List.append_nil, hM,
      Nat.succ_mul]

/-- Indexing into a concatenation of `n` equal-length blocks: position
`q * M + j` is position `j` of block `q`. -/
theorem flatMap_range_getElem? {α : Type} (f : Nat → List α) (M : Nat)
    (hM : ∀ i, (f i).length = M) (n q j : Nat) (hq : q < n) (hj : j < M) :
    ((List.range n).flatMap f)[q * M + j]? = (f q)[j]? := by
  induction n with
  | zero => omega
  | succ n ih =>
    rw [List.range_succ, List.flatMap_append, List.flatMap_cons,
      List.flatMap_nil, List.append_nil]
    rcases Nat.lt_succ_iff_lt_or_eq.mp hq with hq' | rfl
    · have hlt : q * M + j < ((List.range n).flatMap f).length := by
        rw [flatMap_range_length f M hM n]
        calc q * M + j < q * M + M := Nat.add_lt_add_left hj _
          _ = (q + 1) * M := (Nat.succ_mul q M).symm
          _ ≤ n * M := Nat.mul_le_mul_right M hq'
      rw [List.getElem?_append_left hlt]
      exact ih hq'
    · have hle : ((List.range q).flatMap f).length ≤ q * M + j := by
        rw [flatMap_range_length f M hM q]
        exact Nat.le_add_right _ _
      rw [List.getElem?_append_right hle, flatMap_range_length f M hM q,
        Nat.add_sub_cancel_left]

/-- C7: (spec-modelled Turn Order Builder, §4.1) for every configuration with
at least one member and one round, the builder produces exactly
`memberCount * rounds` TurnSlots; the slot at 0-based position `k` has
`overallPickNumber = k + 1` (so the numbers run 1..N strictly increasing),
`roundNumber = k / memberCount + 1`, `pickInRound = k % memberCount + 1`
(cycling 1..memberCount within each round), and under SNAKE draws its member
from the forward order in odd (1-indexed) rounds and from the reversed order
in even rounds. -/
theorem turn_order_builder_shape (members : List Nat) (rounds : Nat)
    (snake : Bool) (hm : 1 ≤ members.length) (_hr : 1 ≤ rounds) :
    (buildTurnOrder members rounds snake).length =
        members.length * rounds ∧
      ∀ k, k < members.length * rounds →
        (buildTurnOrder members rounds snake)[k]? =
          ((if snake && (k / members.length + 1) % 2 == 0 then
              members.reverse else members)[k % members.length]?).map
            (fun m => ⟨k + 1, k / members.length + 1,
              k % members.length + 1, m⟩) := by
  have hM : ∀ i, (slotsForRound members snake (i + 1)).length =
      members.length :=
    fun i => slotsForRound_length members snake (i + 1)
  constructor
  · rw [buildTurnOrder, flatMap_range_length _ _ hM, Nat.mul_comm]
  · intro k hk
    have hM0 : 0 < members.length := hm
    have hq : k / members.length < rounds := by
      rw [Nat.div_lt_iff_lt_mul hM0]
      rw [Nat.mul_comm] at hk
      exact hk
    have hj : k % members.length < members.length := Nat.mod_lt k hM0
    have hsplit : k / members.length * members.length + k % members.length =
        k := Nat.div_add_mod' k members.length
    rw [buildTurnOrder, ← hsplit,
      flatMap_range_getElem? _ _ hM rounds _ _ hq hj,
      slotsForRound_getElem?]
    simp only [Nat.add_sub_cancel, roundMemberOrder, hsplit]

/-- Witness for C7 at a SNAKE draft of 3 members and 2 rounds. -/
theorem turn_order_builder_shape_app :
    (buildTurnOrder [10, 20, 30] 2 true).length = 3 * 2 :=
  (turn_order_builder_shape [10, 20, 30] 2 true (by decide) (by decide)).1

end OnTheMargin
